import Mathlib

/-!
Shallow embedding of the transfer-notification reconciliation pipeline of
src/sn_node/src/bin/safenode_rpc_client.rs, centred on the function
transfers_events (lines 239-342).  The event-processing loop, the per-batch
verification loop, the deposit call, and the reporting/persistence loop are
translated from the source.  Collaborator crates that are not under src/
(sn_transfers, sn_client, sn_node event decoding, sn_protocol addressing)
are modelled from the spec where noted.
-/

/-- Opaque binary payload carried by a stream item (e.event in the source). -/
abbrev Bytes := List Nat

instance {ε α : Type} [DecidableEq ε] [DecidableEq α] : DecidableEq (Except ε α) := fun a b =>
  match a, b with
  | Except.error x, Except.error y => decidable_of_iff (x = y) (by simp)
  | Except.error _, Except.ok _ => Decidable.isFalse (by simp)
  | Except.ok _, Except.error _ => Decidable.isFalse (by simp)
  | Except.ok x, Except.ok y => decidable_of_iff (x = y) (by simp)

/-- One value element of a cash note as seen by this pipeline.  Translated from
the uses the source makes of sn_transfers::CashNote: a unique identifying
public key (cn.unique_pubkey()), a fallible monetary value (cn.value(), a
Result in the source), and a fallible stable hex serialization (cn.to_hex(),
also a Result).  The public key is modelled as a Nat. -/
structure CashNote where
  unique_pubkey : Nat
  value : Except String Nat
  to_hex : Except String String
deriving Repr, DecidableEq

/-- Modelled from the spec: the content of an Encrypted transfer's ciphertext
blob (sn_transfers is not under src/).  Per the spec's TransferVerifier
contract, decryption against a holder key succeeds exactly when the blob is
structurally valid for that key and addressed to it, in which case it unpacks
into zero or more cash notes; so the blob is modelled as abstractly carrying
its recipient key, a structural-validity flag for that key, and its notes. -/
structure Ciphertext where
  recipient : Nat
  valid : Bool
  notes : List CashNote
deriving Repr, DecidableEq

/-- Modelled from the spec: sn_transfers::Transfer (not under src/), the
tagged union the source matches on: Encrypted(ciphertext blob) or
NetworkRoyalties(unencrypted blob). -/
inductive Transfer where
  | Encrypted (c : Ciphertext)
  | NetworkRoyalties (blob : Bytes)
deriving Repr, DecidableEq

/-- Typed domain event produced by decoding a payload.  Translated from the
match arms the source distinguishes on sn_node::NodeEvent: the TransferNotif
variant carrying a recipient key and a batch of transfers, and all other
variants (handled by the catch-all arm at line 334), collapsed to Other. -/
inductive NodeEvent where
  | TransferNotif (key : Nat) (transfers : List Transfer)
  | Other
deriving Repr, DecidableEq

/-- One item of the node-events stream: Ok(e) carrying a payload, or a
transport-level Err item (tonic::Status in the source). -/
inductive StreamItem where
  | ok (event : Bytes)
  | transportErr
deriving Repr, DecidableEq

/-- Wallet state owned by the LocalWallet: the running balance and the set of
cash-note identifiers already deposited.  Modelled from the spec's
WalletState ("the running balance and the set of CashNote identifiers
already applied"); sn_transfers::LocalWallet is not under src/. -/
structure WalletState where
  balance : Nat
  deposited : List Nat
deriving Repr, DecidableEq

/-- In-memory model of the note-store directory: an association list from file
path to file contents, plus a fault-injection set of paths on which a write
fails with an I/O error (fs::write returns io::Result in the source). -/
structure Fs where
  files : List (String × String)
  failWrites : List String
deriving Repr, DecidableEq

/-- Overwrite-or-append update of the file association list. -/
def setFile : List (String × String) → String → String → List (String × String)
  | [], p, c => [(p, c)]
  | (q, d) :: rest, p, c => if q = p then (p, c) :: rest else (q, d) :: setFile rest p c

/-- Model of fs::write at line 325: fails on fault-injected paths, otherwise
overwrites the file at the given path with the given contents. -/
def fsWrite (fs : Fs) (path contents : String) : Except String Fs :=
  if path ∈ fs.failWrites then Except.error "io error"
  else Except.ok { fs with files := setFile fs.files path contents }

/-- Console/log lines the loop emits, one constructor per println!/warn! site
of transfers_events (lines 279, 291, 300, 308, 322, 328, 332, 336). -/
inductive Out where
  | notifReceived (key : Nat) (count : Nat)
  | warnInvalidTransfer
  | warnRoyalty
  | cashNoteReceived (id : Nat) (value : Nat)
  | writingCashNote (path : String)
  | newBalance (b : Nat)
  | blankLine
  | parseError
deriving Repr, DecidableEq

/-- Modelled from the spec: Client::verify_and_unpack_transfer (sn_client, not
under src/).  Per the spec's TransferVerifier contract, an Encrypted transfer
is decrypted with the holder's key: a structurally invalid ciphertext or one
addressed to a different key is a negative result (the source's Err arm,
commented "transfer not for us"); a valid ciphertext addressed to the holder
unpacks into its cash notes. -/
def verify_and_unpack_transfer (holderPk : Nat) (transfer : Transfer) :
    Except String (List CashNote) :=
  match transfer with
  | Transfer.Encrypted c =>
    if c.valid = true then
      if c.recipient = holderPk then Except.ok c.notes
      else Except.error "transfer addressed to a different key"
    else Except.error "ciphertext structurally invalid for this key"
  | Transfer.NetworkRoyalties _ => Except.error "not an encrypted transfer"

/-- Modelled from the spec: LocalWallet::deposit (sn_transfers, not under
src/).  Per the spec's WalletLedger contract it adds each note's value to the
running balance exactly once, no-ops on a note identifier already recorded as
deposited, and is atomic over the batch (on failure the caller's wallet state
is unchanged). -/
def deposit : WalletState → List CashNote → Except String WalletState
  | w, [] => Except.ok w
  | w, cn :: rest =>
    if cn.unique_pubkey ∈ w.deposited then deposit w rest
    else
      match cn.value with
      | Except.error e => Except.error e
      | Except.ok v => deposit ⟨w.balance + v, cn.unique_pubkey :: w.deposited⟩ rest

/-- Modelled from the spec: the content address of a note's unique public key,
SpendAddress::from_unique_pubkey followed by xorname() at line 317
(sn_protocol is not under src/).  The spec specifies only "a fixed-width
identifier derived deterministically by hashing an entity's unique key", so
the hash is abstracted as a deterministic function of the key. -/
def content_address (pk : Nat) : Nat := pk

/-- Hex encoding (hex::encode at line 319), modelled on Nat digits. -/
def hexEncode (n : Nat) : String := String.mk (Nat.toDigits 16 n)

/-- Cash-note file path built at lines 316-321:
base_dir joined with the hex-encoded content address plus the
.cash_note extension; a pure function of the note's unique public key. -/
def cash_note_file_path (base : String) (pk : Nat) : String :=
  base ++ "/" ++ hexEncode (content_address pk) ++ ".cash_note"

/-- Verification loop of transfers_events, lines 284-303: walk the batch in
order; an Encrypted transfer is passed to verify_and_unpack_transfer, whose
Err arm warns and continues and whose Ok arm extends the accumulated notes; a
NetworkRoyalties transfer is discarded with a warning.  Returns the
accumulated cash notes and the emitted log lines, each in order. -/
def accumulate_cash_notes : Nat → List Transfer → List CashNote × List Out
  | _, [] => ([], [])
  | holderPk, t :: rest =>
    let r := accumulate_cash_notes holderPk rest
    match t with
    | Transfer.Encrypted _ =>
      match verify_and_unpack_transfer holderPk t with
      | Except.error _ => (r.1, Out.warnInvalidTransfer :: r.2)
      | Except.ok cns => (cns ++ r.1, r.2)
    | Transfer.NetworkRoyalties _ => (r.1, Out.warnRoyalty :: r.2)

/-- Result of the reporting/persistence loop: the Except value the loop body
produces (an error from cn.value()?, cn.to_hex()? or fs::write(..)? exits
transfers_events), the file-system state reached, and the lines printed. -/
structure RepResult where
  result : Except String Unit
  fs : Fs
  outs : List Out
deriving Repr, DecidableEq

/-- Reporting/persistence loop of transfers_events, lines 307-327: for each
deposited note in order, print its id and value (cn.value()? may fail); when a
log path is configured, print the target path, serialize with cn.to_hex()?
and write the file with fs::write(..)?; any failure exits immediately with
that error, leaving later notes unprocessed. -/
def report_and_persist : Option String → List CashNote → Fs → RepResult
  | _, [], fs => ⟨Except.ok (), fs, []⟩
  | logPath, cn :: rest, fs =>
    match cn.value with
    | Except.error e => ⟨Except.error e, fs, []⟩
    | Except.ok v =>
      match logPath with
      | none =>
        let r := report_and_persist none rest fs
        ⟨r.result, r.fs, Out.cashNoteReceived cn.unique_pubkey v :: r.outs⟩
      | some base =>
        let path := cash_note_file_path base cn.unique_pubkey
        match cn.to_hex with
        | Except.error e =>
          ⟨Except.error e, fs, [Out.cashNoteReceived cn.unique_pubkey v, Out.writingCashNote path]⟩
        | Except.ok h =>
          match fsWrite fs path h with
          | Except.error e =>
            ⟨Except.error e, fs, [Out.cashNoteReceived cn.unique_pubkey v, Out.writingCashNote path]⟩
          | Except.ok fs1 =>
            let r := report_and_persist (some base) rest fs1
            ⟨r.result, r.fs, Out.cashNoteReceived cn.unique_pubkey v ::
              Out.writingCashNote path :: r.outs⟩

/-- Result of processing one stream item or the whole loop: the Except value
(transfers_events returns early with Err via the ? operators), the wallet and
file-system state reached, and the lines printed. -/
structure RunResult where
  result : Except String Unit
  wallet : WalletState
  fs : Fs
  outs : List Out
deriving Repr, DecidableEq

/-- Handler of one TransferNotif event, lines 278-333: print the notification
line, run the verification loop over the batch, apply the whole accumulated
batch in the single deposit call at line 305 (its ? exits on error), then run
the reporting/persistence loop and finally print the new balance. -/
def processTransferNotif (holderPk : Nat) (logPath : Option String) (key : Nat)
    (transfers : List Transfer) (w : WalletState) (fs : Fs) : RunResult :=
  let out0 := Out.notifReceived key transfers.length
  let acc := accumulate_cash_notes holderPk transfers
  match deposit w acc.1 with
  | Except.error e => ⟨Except.error e, w, fs, out0 :: acc.2⟩
  | Except.ok w1 =>
    let rep := report_and_persist logPath acc.1 fs
    match rep.result with
    | Except.error e => ⟨Except.error e, w1, rep.fs, out0 :: (acc.2 ++ rep.outs)⟩
    | Except.ok _ =>
      ⟨Except.ok (), w1, rep.fs,
        out0 :: (acc.2 ++ rep.outs ++ [Out.newBalance w1.balance, Out.blankLine])⟩

/-- Stream-processing loop of transfers_events, lines 275-341:
while let Some(Ok(e)) = stream.next() — a transport Err item fails the
pattern and exits the loop, after which the function returns Ok(()); a decode
failure prints the parse-error line and continues; a non-transfer event is
skipped; a TransferNotif event is handled by processTransferNotif, whose
error (from the ? operators) returns from the function.  The decoder
(sn_node::NodeEvent::from_bytes, not under src/) is a parameter. -/
def transfers_events_loop (decode : Bytes → Except String NodeEvent) (holderPk : Nat)
    (logPath : Option String) : List StreamItem → WalletState → Fs → RunResult
  | [], w, fs => ⟨Except.ok (), w, fs, []⟩
  | StreamItem.transportErr :: _, w, fs => ⟨Except.ok (), w, fs, []⟩
  | StreamItem.ok b :: rest, w, fs =>
    match decode b with
    | Except.error _ =>
      let r := transfers_events_loop decode holderPk logPath rest w fs
      ⟨r.result, r.wallet, r.fs, Out.parseError :: r.outs⟩
    | Except.ok NodeEvent.Other => transfers_events_loop decode holderPk logPath rest w fs
    | Except.ok (NodeEvent.TransferNotif key transfers) =>
      let er := processTransferNotif holderPk logPath key transfers w fs
      match er.result with
      | Except.error e => ⟨Except.error e, er.wallet, er.fs, er.outs⟩
      | Except.ok _ =>
        let r := transfers_events_loop decode holderPk logPath rest er.wallet er.fs
        ⟨r.result, r.wallet, r.fs, er.outs ++ r.outs⟩

/-- Sample decoder standing in for NodeEvent::from_bytes in concrete runs:
an empty payload is malformed, a payload headed by 1 is a TransferNotif for
an empty batch, anything else decodes to a non-transfer event. -/
def decodeFixture : Bytes → Except String NodeEvent
  | [] => Except.error "truncated payload"
  | 1 :: key :: _ => Except.ok (NodeEvent.TransferNotif key [])
  | _ => Except.ok NodeEvent.Other

/-- Sample cash note used in concrete runs. -/
def noteA : CashNote := ⟨7, Except.ok 5, Except.ok "00ff"⟩

/-- Second sample cash note, distinct identifier and value. -/
def noteB : CashNote := ⟨8, Except.ok 3, Except.ok "a1"⟩

/-- Sample cash note whose serialization (to_hex) fails. -/
def noteBadHex : CashNote := ⟨9, Except.ok 2, Except.error "serialization failed"⟩

/-- Sample encrypted transfer addressed to key 42, carrying noteA. -/
def transferA : Transfer := Transfer.Encrypted ⟨42, true, [noteA]⟩

/-- Sample encrypted transfer addressed to key 42, carrying noteBadHex. -/
def transferBadHex : Transfer := Transfer.Encrypted ⟨42, true, [noteBadHex]⟩

/-- Empty wallet. -/
def walletZero : WalletState := ⟨0, []⟩

/-- Empty note store. -/
def fsEmpty : Fs := ⟨[], []⟩

/-- Note store on which the write of noteA's file (under base directory
"base") is fault-injected to fail. -/
def fsFailA : Fs := ⟨[], [cash_note_file_path "base" 7]⟩

/-- Sample ciphertext addressed to key 99 (not the holder in concrete runs). -/
def cipherOther : Ciphertext := ⟨99, true, [noteA]⟩

theorem accumulate_append (hp : Nat) (ts1 ts2 : List Transfer) :
    accumulate_cash_notes hp (ts1 ++ ts2) =
      ((accumulate_cash_notes hp ts1).1 ++ (accumulate_cash_notes hp ts2).1,
       (accumulate_cash_notes hp ts1).2 ++ (accumulate_cash_notes hp ts2).2) := by
  induction ts1 with
  | nil => simp [accumulate_cash_notes]
  | cons t rest ih =>
    cases t with
    | Encrypted c =>
      simp only [List.cons_append, accumulate_cash_notes]
      cases verify_and_unpack_transfer hp (Transfer.Encrypted c) with
      | error e => simp [ih]
      | ok cns => simp [ih, List.append_assoc]
    | NetworkRoyalties b =>
      simp only [List.cons_append, accumulate_cash_notes]
      simp [ih]

theorem deposit_fresh (notes : List CashNote) (vs : List Nat) (w : WalletState)
    (hvals : List.Forall₂ (fun cn v => cn.value = Except.ok v) notes vs)
    (hfresh : ∀ cn ∈ notes, cn.unique_pubkey ∉ w.deposited)
    (hnodup : (notes.map CashNote.unique_pubkey).Nodup) :
    deposit w notes =
      Except.ok ⟨w.balance + vs.sum,
        (notes.map CashNote.unique_pubkey).reverse ++ w.deposited⟩ := by
  induction hvals generalizing w with
  | nil => simp [deposit]
  | @cons cn v notes2 vs2 hcv htail ih =>
    simp only [List.map_cons, List.nodup_cons] at hnodup
    simp only [deposit]
    rw [if_neg (hfresh cn (List.mem_cons_self ..)), hcv]
    have hfresh2 : ∀ c ∈ notes2, c.unique_pubkey ∉
        (⟨w.balance + v, cn.unique_pubkey :: w.deposited⟩ : WalletState).deposited := by
      intro c hc
      simp only [List.mem_cons, not_or]
      constructor
      · intro hEq
        exact hnodup.1 (hEq ▸ List.mem_map_of_mem CashNote.unique_pubkey hc)
      · exact hfresh c (List.mem_cons_of_mem _ hc)
    show deposit ⟨w.balance + v, cn.unique_pubkey :: w.deposited⟩ notes2 =
      Except.ok ⟨w.balance + (v :: vs2).sum,
        (List.map CashNote.unique_pubkey (cn :: notes2)).reverse ++ w.deposited⟩
    rw [ih _ hfresh2 hnodup.2]
    simp [Nat.add_assoc, List.append_assoc]

theorem deposit_noop (notes : List CashNote) (w : WalletState)
    (hall : ∀ cn ∈ notes, cn.unique_pubkey ∈ w.deposited) :
    deposit w notes = Except.ok w := by
  induction notes with
  | nil => rfl
  | cons cn rest ih =>
    simp only [deposit]
    rw [if_pos (hall cn (List.mem_cons_self ..))]
    exact ih (fun c hc => hall c (List.mem_cons_of_mem _ hc))

theorem processTransferNotif_of_deposit_error (hp : Nat) (lp : Option String) (key : Nat)
    (ts : List Transfer) (w : WalletState) (fs : Fs) (e : String)
    (he : deposit w (accumulate_cash_notes hp ts).1 = Except.error e) :
    processTransferNotif hp lp key ts w fs =
      ⟨Except.error e, w, fs,
        Out.notifReceived key ts.length :: (accumulate_cash_notes hp ts).2⟩ := by
  simp [processTransferNotif, he]

theorem processTransferNotif_wallet_of_deposit (hp : Nat) (lp : Option String) (key : Nat)
    (ts : List Transfer) (w w1 : WalletState) (fs : Fs)
    (hdep : deposit w (accumulate_cash_notes hp ts).1 = Except.ok w1) :
    (processTransferNotif hp lp key ts w fs).wallet = w1 := by
  simp only [processTransferNotif, hdep]
  cases hr : (report_and_persist lp (accumulate_cash_notes hp ts).1 fs).result <;> simp [hr]

theorem processTransferNotif_eq_of_acc (hp : Nat) (lp : Option String) (key key2 : Nat)
    (ts ts2 : List Transfer) (w : WalletState) (fs : Fs)
    (hacc : (accumulate_cash_notes hp ts).1 = (accumulate_cash_notes hp ts2).1) :
    (processTransferNotif hp lp key ts w fs).result =
      (processTransferNotif hp lp key2 ts2 w fs).result ∧
    (processTransferNotif hp lp key ts w fs).wallet =
      (processTransferNotif hp lp key2 ts2 w fs).wallet ∧
    (processTransferNotif hp lp key ts w fs).fs =
      (processTransferNotif hp lp key2 ts2 w fs).fs := by
  simp only [processTransferNotif, hacc]
  cases hd : deposit w (accumulate_cash_notes hp ts2).1 with
  | error e => simp
  | ok w1 =>
    cases hr : (report_and_persist lp (accumulate_cash_notes hp ts2).1 fs).result <;> simp [hr]

/-- C1, as stated, is false of the code: with persistence configured, a
concrete batch holding one note whose file write fails ends with the deposit
applied to the wallet ledger (balance 5, identifier 7 recorded) while the
note store holds no file at all, so the note was not persisted before the
batch was applied via deposit. -/
theorem C1_deposit_precedes_persistence_cex :
    (processTransferNotif 42 (some "base") 42 [transferA] walletZero fsFailA).wallet =
      ⟨5, [7]⟩ ∧
    (processTransferNotif 42 (some "base") 42 [transferA] walletZero fsFailA).fs.files = [] ∧
    (processTransferNotif 42 (some "base") 42 [transferA] walletZero fsFailA).result =
      Except.error "io error" := by
  refine ⟨?_, ?_, ?_⟩ <;> rfl

/-- C1 amended: deposit-then-persistence ordering.  In every batch with
persistence configured, nothing is persisted before the deposit: if the
deposit call fails the handler returns its error with the note store
untouched, and whenever the deposit call succeeds the resulting wallet state
is the post-deposit one, whatever the persistence loop then does. -/
theorem C1_amended_deposit_then_persist (hp : Nat) (base : String) (key : Nat)
    (ts : List Transfer) (w : WalletState) (fs : Fs) :
    (∀ e, deposit w (accumulate_cash_notes hp ts).1 = Except.error e →
      processTransferNotif hp (some base) key ts w fs =
        ⟨Except.error e, w, fs,
          Out.notifReceived key ts.length :: (accumulate_cash_notes hp ts).2⟩) ∧
    (∀ w1, deposit w (accumulate_cash_notes hp ts).1 = Except.ok w1 →
      (processTransferNotif hp (some base) key ts w fs).wallet = w1) := by
  constructor
  · intro e he
    exact processTransferNotif_of_deposit_error hp (some base) key ts w fs e he
  · intro w1 hw1
    exact processTransferNotif_wallet_of_deposit hp (some base) key ts w w1 fs hw1

theorem C1_amended_witness :
    deposit walletZero (accumulate_cash_notes 42 [transferA]).1 = Except.ok ⟨5, [7]⟩ ∧
    (processTransferNotif 42 (some "base") 42 [transferA] walletZero fsFailA).wallet =
      ⟨5, [7]⟩ :=
  ⟨rfl,
   (C1_amended_deposit_then_persist 42 "base" 42 [transferA] walletZero fsFailA).2
     ⟨5, [7]⟩ rfl⟩

/-- C2: depositing a batch of notes with pairwise-distinct identifiers, all
fresh to the wallet, with values vs, succeeds and raises the balance by
exactly the sum of vs; depositing the identical batch again leaves the
resulting wallet unchanged. -/
theorem C2_deposit_exact_idempotent (w : WalletState) (notes : List CashNote)
    (vs : List Nat)
    (hvals : List.Forall₂ (fun cn v => cn.value = Except.ok v) notes vs)
    (hnodup : (notes.map CashNote.unique_pubkey).Nodup)
    (hfresh : ∀ cn ∈ notes, cn.unique_pubkey ∉ w.deposited) :
    ∃ w1, deposit w notes = Except.ok w1 ∧
      w1.balance = w.balance + vs.sum ∧
      deposit w1 notes = Except.ok w1 := by
  refine ⟨_, deposit_fresh notes vs w hvals hfresh hnodup, rfl, ?_⟩
  apply deposit_noop
  intro cn hcn
  simp only [List.mem_append, List.mem_reverse]
  exact Or.inl (List.mem_map_of_mem CashNote.unique_pubkey hcn)

theorem C2_witness :
    List.Forall₂ (fun cn v => cn.value = Except.ok v) [noteA, noteB] [5, 3] ∧
    ([noteA, noteB].map CashNote.unique_pubkey).Nodup ∧
    (∀ cn ∈ [noteA, noteB], cn.unique_pubkey ∉ walletZero.deposited) ∧
    ∃ w1, deposit walletZero [noteA, noteB] = Except.ok w1 ∧
      w1.balance = walletZero.balance + [5, 3].sum ∧
      deposit w1 [noteA, noteB] = Except.ok w1 :=
  ⟨List.Forall₂.cons rfl (List.Forall₂.cons rfl List.Forall₂.nil),
   by decide, by decide,
   C2_deposit_exact_idempotent walletZero [noteA, noteB] [5, 3]
     (List.Forall₂.cons rfl (List.Forall₂.cons rfl List.Forall₂.nil))
     (by decide) (by decide)⟩

/-- C3: an Encrypted transfer that is structurally invalid for the holder's
key or addressed to a different key fails verification, so the batch loop
accumulates zero CashNotes from it, emits the warn line, leaves the
wallet-ledger and note-store outcomes exactly as if the transfer were absent,
and still processes the remaining transfers of the batch. -/
theorem C3_failed_verification_skipped (hp : Nat) (c : Ciphertext)
    (ts1 ts2 : List Transfer) (lp : Option String) (key : Nat)
    (w : WalletState) (fs : Fs)
    (hfail : c.valid = false ∨ c.recipient ≠ hp) :
    (∃ e, verify_and_unpack_transfer hp (Transfer.Encrypted c) = Except.error e) ∧
    (accumulate_cash_notes hp (ts1 ++ Transfer.Encrypted c :: ts2)).1 =
      (accumulate_cash_notes hp (ts1 ++ ts2)).1 ∧
    (accumulate_cash_notes hp (ts1 ++ Transfer.Encrypted c :: ts2)).2 =
      (accumulate_cash_notes hp ts1).2 ++
        Out.warnInvalidTransfer :: (accumulate_cash_notes hp ts2).2 ∧
    (processTransferNotif hp lp key (ts1 ++ Transfer.Encrypted c :: ts2) w fs).result =
      (processTransferNotif hp lp key (ts1 ++ ts2) w fs).result ∧
    (processTransferNotif hp lp key (ts1 ++ Transfer.Encrypted c :: ts2) w fs).wallet =
      (processTransferNotif hp lp key (ts1 ++ ts2) w fs).wallet ∧
    (processTransferNotif hp lp key (ts1 ++ Transfer.Encrypted c :: ts2) w fs).fs =
      (processTransferNotif hp lp key (ts1 ++ ts2) w fs).fs := by
  have hverr : ∃ e, verify_and_unpack_transfer hp (Transfer.Encrypted c) =
      Except.error e := by
    rcases hfail with h | h
    · exact ⟨"ciphertext structurally invalid for this key",
        by simp [verify_and_unpack_transfer, h]⟩
    · cases hc : c.valid with
      | false => exact ⟨"ciphertext structurally invalid for this key",
          by simp [verify_and_unpack_transfer, hc]⟩
      | true => exact ⟨"transfer addressed to a different key",
          by simp [verify_and_unpack_transfer, hc, h]⟩
  have hstep : accumulate_cash_notes hp (Transfer.Encrypted c :: ts2) =
      ((accumulate_cash_notes hp ts2).1,
       Out.warnInvalidTransfer :: (accumulate_cash_notes hp ts2).2) := by
    obtain ⟨e, he⟩ := hverr
    simp [accumulate_cash_notes, he]
  have h1 : (accumulate_cash_notes hp (ts1 ++ Transfer.Encrypted c :: ts2)).1 =
      (accumulate_cash_notes hp (ts1 ++ ts2)).1 := by
    rw [accumulate_append, accumulate_append, hstep]
  have h2 : (accumulate_cash_notes hp (ts1 ++ Transfer.Encrypted c :: ts2)).2 =
      (accumulate_cash_notes hp ts1).2 ++
        Out.warnInvalidTransfer :: (accumulate_cash_notes hp ts2).2 := by
    rw [accumulate_append, hstep]
  obtain ⟨hr, hw, hf⟩ := processTransferNotif_eq_of_acc hp lp key key _ _ w fs h1
  exact ⟨hverr, h1, h2, hr, hw, hf⟩

theorem C3_witness :
    (cipherOther.valid = false ∨ cipherOther.recipient ≠ 42) ∧
    ((∃ e, verify_and_unpack_transfer 42 (Transfer.Encrypted cipherOther) =
        Except.error e) ∧
     (accumulate_cash_notes 42 ([] ++ Transfer.Encrypted cipherOther :: [])).1 =
       (accumulate_cash_notes 42 ([] ++ [])).1 ∧
     (accumulate_cash_notes 42 ([] ++ Transfer.Encrypted cipherOther :: [])).2 =
       (accumulate_cash_notes 42 []).2 ++
         Out.warnInvalidTransfer :: (accumulate_cash_notes 42 []).2 ∧
     (processTransferNotif 42 none 0 ([] ++ Transfer.Encrypted cipherOther :: [])
        walletZero fsEmpty).result =
       (processTransferNotif 42 none 0 ([] ++ []) walletZero fsEmpty).result ∧
     (processTransferNotif 42 none 0 ([] ++ Transfer.Encrypted cipherOther :: [])
        walletZero fsEmpty).wallet =
       (processTransferNotif 42 none 0 ([] ++ []) walletZero fsEmpty).wallet ∧
     (processTransferNotif 42 none 0 ([] ++ Transfer.Encrypted cipherOther :: [])
        walletZero fsEmpty).fs =
       (processTransferNotif 42 none 0 ([] ++ []) walletZero fsEmpty).fs) :=
  ⟨Or.inr (by decide),
   C3_failed_verification_skipped 42 cipherOther [] [] none 0 walletZero fsEmpty
     (Or.inr (by decide))⟩

/-- C6: a NetworkRoyalty-tagged transfer, wherever it occurs in a batch and
whatever the holder key, contributes no CashNote and nothing to the deposit:
the batch outcome on wallet, note store and result is exactly as if the
transfer were absent, and only the warn line is added. -/
theorem C6_royalty_discarded (hp : Nat) (blob : Bytes) (ts1 ts2 : List Transfer)
    (lp : Option String) (key : Nat) (w : WalletState) (fs : Fs) :
    (accumulate_cash_notes hp (ts1 ++ Transfer.NetworkRoyalties blob :: ts2)).1 =
      (accumulate_cash_notes hp (ts1 ++ ts2)).1 ∧
    (accumulate_cash_notes hp (ts1 ++ Transfer.NetworkRoyalties blob :: ts2)).2 =
      (accumulate_cash_notes hp ts1).2 ++
        Out.warnRoyalty :: (accumulate_cash_notes hp ts2).2 ∧
    (processTransferNotif hp lp key (ts1 ++ Transfer.NetworkRoyalties blob :: ts2) w fs).result =
      (processTransferNotif hp lp key (ts1 ++ ts2) w fs).result ∧
    (processTransferNotif hp lp key (ts1 ++ Transfer.NetworkRoyalties blob :: ts2) w fs).wallet =
      (processTransferNotif hp lp key (ts1 ++ ts2) w fs).wallet ∧
    (processTransferNotif hp lp key (ts1 ++ Transfer.NetworkRoyalties blob :: ts2) w fs).fs =
      (processTransferNotif hp lp key (ts1 ++ ts2) w fs).fs := by
  have hstep : accumulate_cash_notes hp (Transfer.NetworkRoyalties blob :: ts2) =
      ((accumulate_cash_notes hp ts2).1,
       Out.warnRoyalty :: (accumulate_cash_notes hp ts2).2) := by
    simp [accumulate_cash_notes]
  have h1 : (accumulate_cash_notes hp (ts1 ++ Transfer.NetworkRoyalties blob :: ts2)).1 =
      (accumulate_cash_notes hp (ts1 ++ ts2)).1 := by
    rw [accumulate_append, accumulate_append, hstep]
  have h2 : (accumulate_cash_notes hp (ts1 ++ Transfer.NetworkRoyalties blob :: ts2)).2 =
      (accumulate_cash_notes hp ts1).2 ++
        Out.warnRoyalty :: (accumulate_cash_notes hp ts2).2 := by
    rw [accumulate_append, hstep]
  obtain ⟨hr, hw, hf⟩ := processTransferNotif_eq_of_acc hp lp key key _ _ w fs h1
  exact ⟨h1, h2, hr, hw, hf⟩

/-- C7: the batch loop is a homomorphism over batch concatenation — transfers
are verified sequentially in batch order and their notes and log lines
accumulate in that order — and the whole accumulated batch reaches the wallet
in the single deposit call, whose successful result is the handler's final
wallet state. -/
theorem C7_sequential_accumulate_single_deposit (hp key : Nat) (lp : Option String)
    (ts1 ts2 : List Transfer) (w w1 : WalletState) (fs : Fs) :
    (accumulate_cash_notes hp (ts1 ++ ts2)).1 =
      (accumulate_cash_notes hp ts1).1 ++ (accumulate_cash_notes hp ts2).1 ∧
    (accumulate_cash_notes hp (ts1 ++ ts2)).2 =
      (accumulate_cash_notes hp ts1).2 ++ (accumulate_cash_notes hp ts2).2 ∧
    (deposit w (accumulate_cash_notes hp (ts1 ++ ts2)).1 = Except.ok w1 →
      (processTransferNotif hp lp key (ts1 ++ ts2) w fs).wallet = w1) := by
  refine ⟨by rw [accumulate_append], by rw [accumulate_append], ?_⟩
  intro hdep
  exact processTransferNotif_wallet_of_deposit hp lp key (ts1 ++ ts2) w w1 fs hdep

theorem C7_witness :
    deposit walletZero (accumulate_cash_notes 42 ([transferA] ++ [])).1 =
      Except.ok ⟨5, [7]⟩ ∧
    (processTransferNotif 42 none 0 ([transferA] ++ []) walletZero fsEmpty).wallet =
      ⟨5, [7]⟩ :=
  ⟨rfl,
   (C7_sequential_accumulate_single_deposit 42 0 none [transferA] [] walletZero
     ⟨5, [7]⟩ fsEmpty).2.2 rfl⟩

/-- C8: a transport-level Err stream item exits the processing loop, which
then finishes with Ok(()), no log line and no state change — the very same
outcome as the loop reaching the end of the stream, so a transport failure is
indistinguishable from graceful completion in the result. -/
theorem C8_transport_error_exits_ok (decode : Bytes → Except String NodeEvent)
    (hp : Nat) (lp : Option String) (rest : List StreamItem)
    (w : WalletState) (fs : Fs) :
    transfers_events_loop decode hp lp (StreamItem.transportErr :: rest) w fs =
      ⟨Except.ok (), w, fs, []⟩ ∧
    transfers_events_loop decode hp lp (StreamItem.transportErr :: rest) w fs =
      transfers_events_loop decode hp lp [] w fs :=
  ⟨rfl, rfl⟩

/-- C9: when the deposit call has succeeded but the subsequent
reporting/persistence loop fails on some note (its value read, its
serialization, or its file write), the handler returns that error while the
deposit remains applied to the wallet (no rollback); and a note on which the
loop fails stops the loop at that point, so the notes after it are neither
reported nor persisted — the outcome is identical whatever follows the
failing note. -/
theorem C9_report_failure_after_deposit (hp : Nat) (base : String) (key : Nat)
    (ts : List Transfer) (w w1 : WalletState) (fs : Fs) (e : String)
    (hdep : deposit w (accumulate_cash_notes hp ts).1 = Except.ok w1)
    (hrep : (report_and_persist (some base) (accumulate_cash_notes hp ts).1 fs).result =
      Except.error e) :
    (processTransferNotif hp (some base) key ts w fs).result = Except.error e ∧
    (processTransferNotif hp (some base) key ts w fs).wallet = w1 ∧
    (∀ (cn : CashNote) (post : List CashNote) (fs2 : Fs),
      ((∃ e2, cn.value = Except.error e2) ∨
       (∃ v e2, cn.value = Except.ok v ∧ cn.to_hex = Except.error e2) ∨
       (∃ v h2, cn.value = Except.ok v ∧ cn.to_hex = Except.ok h2 ∧
         cash_note_file_path base cn.unique_pubkey ∈ fs2.failWrites)) →
      report_and_persist (some base) (cn :: post) fs2 =
        report_and_persist (some base) [cn] fs2) := by
  refine ⟨?_, ?_, ?_⟩
  · simp [processTransferNotif, hdep, hrep]
  · simp [processTransferNotif, hdep, hrep]
  · intro cn post fs2 hfail
    rcases hfail with ⟨e2, hv⟩ | ⟨v, e2, hv, hh⟩ | ⟨v, h2, hv, hh, hmem⟩
    · simp [report_and_persist, hv]
    · simp [report_and_persist, hv, hh]
    · simp [report_and_persist, hv, hh, fsWrite, hmem]

theorem C9_witness :
    deposit walletZero (accumulate_cash_notes 42 [transferBadHex]).1 =
      Except.ok ⟨2, [9]⟩ ∧
    (report_and_persist (some "base") (accumulate_cash_notes 42 [transferBadHex]).1
        fsEmpty).result = Except.error "serialization failed" ∧
    (processTransferNotif 42 (some "base") 0 [transferBadHex] walletZero fsEmpty).result =
      Except.error "serialization failed" ∧
    (processTransferNotif 42 (some "base") 0 [transferBadHex] walletZero fsEmpty).wallet =
      ⟨2, [9]⟩ :=
  ⟨rfl, rfl,
   (C9_report_failure_after_deposit 42 "base" 0 [transferBadHex] walletZero ⟨2, [9]⟩
     fsEmpty "serialization failed" rfl rfl).1,
   (C9_report_failure_after_deposit 42 "base" 0 [transferBadHex] walletZero ⟨2, [9]⟩
     fsEmpty "serialization failed" rfl rfl).2.1⟩

theorem processTransferNotif_outs_head (hp : Nat) (lp : Option String) (key : Nat)
    (ts : List Transfer) (w : WalletState) (fs : Fs) :
    (processTransferNotif hp lp key ts w fs).outs =
      Out.notifReceived key ts.length ::
        (processTransferNotif hp lp key ts w fs).outs.tail := by
  simp only [processTransferNotif]
  cases hd : deposit w (accumulate_cash_notes hp ts).1 with
  | error e => simp
  | ok w1 =>
    cases hr : (report_and_persist lp (accumulate_cash_notes hp ts).1 fs).result <;> simp

theorem processTransferNotif_outs_tail_key (hp : Nat) (lp : Option String)
    (key key2 : Nat) (ts : List Transfer) (w : WalletState) (fs : Fs) :
    (processTransferNotif hp lp key ts w fs).outs.tail =
      (processTransferNotif hp lp key2 ts w fs).outs.tail := by
  simp only [processTransferNotif]
  cases hd : deposit w (accumulate_cash_notes hp ts).1 with
  | error e => simp
  | ok w1 =>
    cases hr : (report_and_persist lp (accumulate_cash_notes hp ts).1 fs).result <;> simp

/-- C10: the recipient key carried in a TransferNotif event is never used to
filter the batch — the whole batch is driven through verification against the
holder's key whatever the event's key, so the result, wallet and note store
are identical for any two event keys, and the event's key appears only in the
head display line of the output. -/
theorem C10_event_key_display_only (hp : Nat) (lp : Option String) (key key2 : Nat)
    (ts : List Transfer) (w : WalletState) (fs : Fs) :
    (processTransferNotif hp lp key ts w fs).result =
      (processTransferNotif hp lp key2 ts w fs).result ∧
    (processTransferNotif hp lp key ts w fs).wallet =
      (processTransferNotif hp lp key2 ts w fs).wallet ∧
    (processTransferNotif hp lp key ts w fs).fs =
      (processTransferNotif hp lp key2 ts w fs).fs ∧
    (processTransferNotif hp lp key ts w fs).outs =
      Out.notifReceived key ts.length ::
        (processTransferNotif hp lp key ts w fs).outs.tail ∧
    (processTransferNotif hp lp key ts w fs).outs.tail =
      (processTransferNotif hp lp key2 ts w fs).outs.tail := by
  obtain ⟨h1, h2, h3⟩ := processTransferNotif_eq_of_acc hp lp key key2 ts ts w fs rfl
  exact ⟨h1, h2, h3, processTransferNotif_outs_head hp lp key ts w fs,
    processTransferNotif_outs_tail_key hp lp key key2 ts w fs⟩

theorem setFile_not_mem (l : List (String × String)) (p c : String)
    (h : p ∉ l.map Prod.fst) : setFile l p c = l ++ [(p, c)] := by
  induction l with
  | nil => rfl
  | cons e rest ih =>
    obtain ⟨q, d⟩ := e
    simp only [List.map_cons, List.mem_cons, not_or] at h
    simp only [setFile, List.cons_append]
    rw [if_neg (fun hq => h.1 hq.symm), ih h.2]

theorem setFile_overwrite_self (l : List (String × String)) (p c : String)
    (h : p ∉ l.map Prod.fst) : setFile (l ++ [(p, c)]) p c = l ++ [(p, c)] := by
  induction l with
  | nil => simp [setFile]
  | cons e rest ih =>
    obtain ⟨q, d⟩ := e
    simp only [List.map_cons, List.mem_cons, not_or] at h
    simp only [List.cons_append, setFile, List.append_eq]
    rw [if_neg (fun hq => h.1 hq.symm), ih h.2]

theorem filter_path_single (l : List (String × String)) (p c : String)
    (h : p ∉ l.map Prod.fst) :
    (l ++ [(p, c)]).filter (fun e => e.1 = p) = [(p, c)] := by
  induction l with
  | nil => simp
  | cons e rest ih =>
    obtain ⟨q, d⟩ := e
    simp only [List.map_cons, List.mem_cons, not_or] at h
    simp only [List.cons_append, List.filter_cons]
    simp [Ne.symm h.1, ih h.2]

/-- C4: persisting the same CashNote twice into the same base directory (as
the reporting/persistence loop does on redelivery) succeeds both times and
yields a single file, located at base/hex(content_address(unique_pubkey))
with the .cash_note extension, whose contents are the note's hex encoding;
the second write leaves the store byte-identical, and the path is a pure
function of the note's unique public key. -/
theorem C4_persist_idempotent (base : String) (cn : CashNote) (fs0 : Fs)
    (h : String) (v : Nat)
    (hv : cn.value = Except.ok v) (hh : cn.to_hex = Except.ok h)
    (habsent : cash_note_file_path base cn.unique_pubkey ∉ fs0.files.map Prod.fst)
    (hnofail : cash_note_file_path base cn.unique_pubkey ∉ fs0.failWrites) :
    (report_and_persist (some base) [cn] fs0).result = Except.ok () ∧
    (report_and_persist (some base) [cn]
        (report_and_persist (some base) [cn] fs0).fs).result = Except.ok () ∧
    (report_and_persist (some base) [cn]
        (report_and_persist (some base) [cn] fs0).fs).fs =
      (report_and_persist (some base) [cn] fs0).fs ∧
    (report_and_persist (some base) [cn] fs0).fs.files.filter
        (fun e => e.1 = cash_note_file_path base cn.unique_pubkey) =
      [(base ++ "/" ++ hexEncode (content_address cn.unique_pubkey) ++ ".cash_note", h)] ∧
    (∀ cn2 : CashNote, cn2.unique_pubkey = cn.unique_pubkey →
      cash_note_file_path base cn2.unique_pubkey =
        cash_note_file_path base cn.unique_pubkey) := by
  have hw1 : fsWrite fs0 (cash_note_file_path base cn.unique_pubkey) h =
      Except.ok ⟨fs0.files ++ [(cash_note_file_path base cn.unique_pubkey, h)],
        fs0.failWrites⟩ := by
    simp only [fsWrite, if_neg hnofail]
    rw [setFile_not_mem _ _ _ habsent]
  have hr1 : report_and_persist (some base) [cn] fs0 =
      ⟨Except.ok (),
       ⟨fs0.files ++ [(cash_note_file_path base cn.unique_pubkey, h)], fs0.failWrites⟩,
       [Out.cashNoteReceived cn.unique_pubkey v,
        Out.writingCashNote (cash_note_file_path base cn.unique_pubkey)]⟩ := by
    simp [report_and_persist, hv, hh, hw1]
  have hw2 : fsWrite
      ⟨fs0.files ++ [(cash_note_file_path base cn.unique_pubkey, h)], fs0.failWrites⟩
      (cash_note_file_path base cn.unique_pubkey) h =
      Except.ok ⟨fs0.files ++ [(cash_note_file_path base cn.unique_pubkey, h)],
        fs0.failWrites⟩ := by
    simp only [fsWrite, if_neg hnofail]
    rw [setFile_overwrite_self _ _ _ habsent]
  have hr2 : report_and_persist (some base) [cn]
      ⟨fs0.files ++ [(cash_note_file_path base cn.unique_pubkey, h)], fs0.failWrites⟩ =
      ⟨Except.ok (),
       ⟨fs0.files ++ [(cash_note_file_path base cn.unique_pubkey, h)], fs0.failWrites⟩,
       [Out.cashNoteReceived cn.unique_pubkey v,
        Out.writingCashNote (cash_note_file_path base cn.unique_pubkey)]⟩ := by
    simp [report_and_persist, hv, hh, hw2]
  refine ⟨by rw [hr1], by rw [hr1]; rw [hr2], by rw [hr1]; rw [hr2], ?_, ?_⟩
  · rw [hr1]
    exact filter_path_single _ _ _ habsent
  · intro cn2 h2
    rw [cash_note_file_path, cash_note_file_path, h2]

theorem C4_witness :
    noteA.value = Except.ok 5 ∧ noteA.to_hex = Except.ok "00ff" ∧
    cash_note_file_path "base" noteA.unique_pubkey ∉ fsEmpty.files.map Prod.fst ∧
    cash_note_file_path "base" noteA.unique_pubkey ∉ fsEmpty.failWrites ∧
    (report_and_persist (some "base") [noteA] fsEmpty).result = Except.ok () ∧
    (report_and_persist (some "base") [noteA]
        (report_and_persist (some "base") [noteA] fsEmpty).fs).fs =
      (report_and_persist (some "base") [noteA] fsEmpty).fs ∧
    (report_and_persist (some "base") [noteA] fsEmpty).fs.files.filter
        (fun e => e.1 = cash_note_file_path "base" noteA.unique_pubkey) =
      [("base" ++ "/" ++ hexEncode (content_address noteA.unique_pubkey) ++
        ".cash_note", "00ff")] :=
  ⟨rfl, rfl, by decide, by decide,
   (C4_persist_idempotent "base" noteA fsEmpty "00ff" 5 rfl rfl (by decide) (by decide)).1,
   (C4_persist_idempotent "base" noteA fsEmpty "00ff" 5 rfl rfl (by decide)
     (by decide)).2.2.1,
   (C4_persist_idempotent "base" noteA fsEmpty "00ff" 5 rfl rfl (by decide)
     (by decide)).2.2.2.1⟩

/-- C5: a stream item whose payload fails to decode makes the loop report the
parse error and proceed to the remaining stream items with the wallet and
note store unchanged — its whole outcome is that of the loop on the rest of
the stream, plus the reported decode error. -/
theorem C5_decode_error_resilient (decode : Bytes → Except String NodeEvent)
    (hp : Nat) (lp : Option String) (b : Bytes) (rest : List StreamItem)
    (w : WalletState) (fs : Fs) (e : String)
    (hdec : decode b = Except.error e) :
    transfers_events_loop decode hp lp (StreamItem.ok b :: rest) w fs =
      ⟨(transfers_events_loop decode hp lp rest w fs).result,
       (transfers_events_loop decode hp lp rest w fs).wallet,
       (transfers_events_loop decode hp lp rest w fs).fs,
       Out.parseError :: (transfers_events_loop decode hp lp rest w fs).outs⟩ := by
  simp [transfers_events_loop, hdec]

theorem C5_witness :
    decodeFixture [] = Except.error "truncated payload" ∧
    transfers_events_loop decodeFixture 0 none [StreamItem.ok []] walletZero fsEmpty =
      ⟨(transfers_events_loop decodeFixture 0 none [] walletZero fsEmpty).result,
       (transfers_events_loop decodeFixture 0 none [] walletZero fsEmpty).wallet,
       (transfers_events_loop decodeFixture 0 none [] walletZero fsEmpty).fs,
       Out.parseError ::
         (transfers_events_loop decodeFixture 0 none [] walletZero fsEmpty).outs⟩ :=
  ⟨rfl,
   C5_decode_error_resilient decodeFixture 0 none [] [] walletZero fsEmpty
     "truncated payload" rfl⟩
